import Mathlib

set_option maxRecDepth 8000

/-!
Verification of the signal-to-execution trading pipeline of the
neural-trader repository.

The development shallowly embeds the relevant TypeScript code:

* `src/portfolio/PortfolioManager.ts` — the portfolio ledger
  (`addPosition`, `updatePosition`, `closePosition`, `updatePrices`,
  `getPerformanceMetrics`, `exportPortfolio`, `importPortfolio`);
* `src/risk/RiskManager.ts` — the risk gate (`validateSignal`,
  `calculatePositionSize`, `calculateKellyFraction`,
  `checkCorrelationRisk`, `calculateProfitFactor`);
* `src/core/TradingEngine.ts` — signal generation (`analyzeSignal`,
  `calculateStopLoss`, `calculateTakeProfit`) and the execution cycle
  (`executeSignals`, staleness handling).

Modelling conventions:

* JavaScript numbers are modelled as `ℚ` (the code performs only
  field arithmetic on the paths analysed here); `Math.sqrt` is passed
  in as an explicit function parameter where it occurs.
* A JavaScript `Map` is modelled as an association list
  (`List (String × α)`): `set` replaces in place or appends, `get`
  returns the first binding, `delete` removes the first binding —
  exactly the observable `Map` behaviour given unique keys, which the
  code maintains.
* Optional / possibly-`undefined` fields are `Option`; JavaScript
  truthiness of a number (`undefined` and `0` are falsy) is made
  explicit at each use site.
* Methods that perform I/O (database writes, event emission, venue
  calls, logging) are embedded as pure state transformers; the I/O
  collaborators are irrelevant to, or abstracted as parameters of, the
  properties proved here.
-/

/-! ## Association-list model of a JavaScript `Map` -/

/-- `Map.get`: first binding of the key, if any. -/
def mapGet {α : Type} : List (String × α) → String → Option α
  | [], _ => none
  | e :: rest, k => if e.1 = k then some e.2 else mapGet rest k

/-- `Map.set`: replace the binding in place, or append a new one. -/
def mapSet {α : Type} : List (String × α) → String → α → List (String × α)
  | [], k, v => [(k, v)]
  | e :: rest, k, v => if e.1 = k then (k, v) :: rest else e :: mapSet rest k v

/-- `Map.delete`: remove the binding of the key, if any. -/
def mapDelete {α : Type} : List (String × α) → String → List (String × α)
  | [], _ => []
  | e :: rest, k => if e.1 = k then rest else e :: mapDelete rest k

/-- `this.balance.get(asset) || 0` — a missing balance reads as `0`
(and a stored `0` also reads as `0`, so `Option.getD` is exact). -/
def balGetD (b : List (String × ℚ)) (k : String) : ℚ :=
  (mapGet b k).getD 0

/-- JavaScript `x || y` on an optional number: `undefined` and `0`
fall through to the right operand. -/
def jsOrQ (x : Option ℚ) (y : ℚ) : ℚ :=
  match x with
  | none => y
  | some v => if v = 0 then y else v

/-! ## Data model (`src/types/index.ts`) -/

/-- `Prediction.direction : 'up' | 'down' | 'neutral'`. -/
inductive Direction where
  | up
  | down
  | neutral
deriving DecidableEq, Repr

/-- The `macd` indicator bundle `{macd, signal, histogram}`. -/
structure MacdVal where
  macd : ℚ
  signal : ℚ
  histogram : ℚ
deriving DecidableEq, Repr

/-- The `bollinger` indicator bundle `{upper, middle, lower}`. -/
structure BollingerVal where
  upper : ℚ
  middle : ℚ
  lower : ℚ
deriving DecidableEq, Repr

/-- The `ema` indicator bundle `{ema12, ema26}`. -/
structure EmaVal where
  ema12 : ℚ
  ema26 : ℚ
deriving DecidableEq, Repr

/-- `MarketData.indicators` — every field is optional. -/
structure Indicators where
  rsi : Option ℚ := none
  macd : Option MacdVal := none
  bollinger : Option BollingerVal := none
  ema : Option EmaVal := none
deriving DecidableEq, Repr

/-- `MarketData` (the candle history is irrelevant to the pipeline
logic analysed here and is omitted). -/
structure MarketData where
  symbol : String
  price : ℚ
  volume : ℚ
  volatility : ℚ
  timestamp : ℕ
  indicators : Option Indicators := none
deriving DecidableEq, Repr

/-- `Signal.metadata`. -/
structure SignalMetadata where
  priceChange : Option ℚ := none
  volume : Option ℚ := none
  volatility : Option ℚ := none
  rsi : Option ℚ := none
  macd : Option MacdVal := none
deriving DecidableEq, Repr

/-- A trading `Signal`.  `action` is the string `"BUY"` or `"SELL"`
(as in the TypeScript union type). -/
structure Signal where
  id : String
  symbol : String
  action : String
  price : ℚ
  targetPrice : ℚ
  stopLoss : ℚ
  takeProfit : ℚ
  confidence : ℚ
  timeframe : String
  timestamp : ℕ
  metadata : Option SignalMetadata := none
deriving DecidableEq, Repr

/-- An open `Position`.  The TypeScript interface declares `timestamp`
required, but `importPortfolio` stores objects that lack it (and
`stopLoss`/`takeProfit`/…), so the runtime value of every field other
than the identifying ones is optional. -/
structure Position where
  id : String
  symbol : String
  side : String
  entryPrice : ℚ
  quantity : ℚ
  currentPrice : Option ℚ := none
  value : Option ℚ := none
  unrealizedPnl : Option ℚ := none
  realizedPnl : Option ℚ := none
  stopLoss : Option ℚ := none
  takeProfit : Option ℚ := none
  timestamp : Option ℕ := none
deriving DecidableEq, Repr

/-- The record pushed by `PortfolioManager.recordPerformance` when a
position is closed. -/
structure ClosedTrade where
  positionId : String
  symbol : String
  side : String
  entryPrice : ℚ
  exitPrice : ℚ
  quantity : ℚ
  pnl : ℚ
  timestamp : ℕ
deriving DecidableEq, Repr

/-- A forecast returned by the predictor. -/
structure Prediction where
  confidence : ℚ
  direction : Direction
  predictedPrice : ℚ
  timeframe : String
  timestamp : ℕ
deriving DecidableEq, Repr

/-! ## Portfolio ledger (`src/portfolio/PortfolioManager.ts`) -/

/-- The in-memory state of a `PortfolioManager`: the `positions` map
(keyed by position id), the `balance` map (keyed by asset), and the
`performanceHistory` array of closed trades. -/
structure PortfolioState where
  positions : List (String × Position)
  balance : List (String × ℚ)
  performanceHistory : List ClosedTrade
deriving DecidableEq, Repr

/-- Character-level splitter behind `symbol.split('/')` (structural
recursion on the character list; same result as the JavaScript
`String.prototype.split` with a one-character separator). -/
def splitSlashAux : List Char → List Char → List (List Char)
  | [], acc => [acc.reverse]
  | c :: cs, acc =>
      if c = '/' then acc.reverse :: splitSlashAux cs []
      else splitSlashAux cs (c :: acc)

/-- `symbol.split('/')`. -/
def splitSlash (symbol : String) : List String :=
  (splitSlashAux symbol.data []).map String.mk

/-- `symbol.split('/')[0]` — the base asset of a trading pair. -/
def baseAsset (symbol : String) : String :=
  (splitSlash symbol).headD ""

/-- `symbol.split('/')[1]` — the quote asset of a trading pair.
(For a symbol without `/` the TypeScript destructuring yields
`undefined`; every symbol used by the engine is a `BASE/QUOTE` pair.) -/
def quoteAsset (symbol : String) : String :=
  ((splitSlash symbol).drop 1).headD ""

/-- The state set up by the constructor via `initializeBalance`:
USDT 10000, BTC 0, ETH 0, no positions, no history. -/
def initialState : PortfolioState :=
  { positions := []
    balance := [("USDT", 10000), ("BTC", 0), ("ETH", 0)]
    performanceHistory := [] }

/-- `PortfolioManager.calculatePnL`. -/
def calculatePnL (position : Position) (currentPrice : ℚ) : ℚ :=
  let diff := currentPrice - position.entryPrice
  if position.side = "BUY" then diff * position.quantity
  else -diff * position.quantity

/-- `PortfolioManager.addPosition`: store the position and move the
balance.  BUY: quote decreases by `entryPrice*quantity` and then base
increases by `quantity`; SELL: base decreases and then quote increases
— with the reads sequenced exactly as in the source (`currentQuote` is
read before any write). -/
def addPosition (st : PortfolioState) (p : Position) : PortfolioState :=
  let positions := mapSet st.positions p.id p
  let base := baseAsset p.symbol
  let quote := quoteAsset p.symbol
  let currentQuote := balGetD st.balance quote
  let cost := p.entryPrice * p.quantity
  let balance :=
    if p.side = "BUY" then
      let bal := mapSet st.balance quote (currentQuote - cost)
      mapSet bal base (balGetD bal base + p.quantity)
    else
      let bal := mapSet st.balance base (balGetD st.balance base - p.quantity)
      mapSet bal quote (currentQuote + cost)
  { st with positions := positions, balance := balance }

/-- The update object of `updatePosition` (`Partial<Position>`): a
field is merged only when present. -/
structure PositionUpdates where
  id : Option String := none
  symbol : Option String := none
  side : Option String := none
  entryPrice : Option ℚ := none
  quantity : Option ℚ := none
  currentPrice : Option (Option ℚ) := none
  value : Option (Option ℚ) := none
  unrealizedPnl : Option (Option ℚ) := none
  realizedPnl : Option (Option ℚ) := none
  stopLoss : Option (Option ℚ) := none
  takeProfit : Option (Option ℚ) := none
  timestamp : Option (Option ℕ) := none
deriving DecidableEq, Repr

/-- `{ ...position, ...updates }`. -/
def applyPositionUpdates (position : Position) (u : PositionUpdates) : Position :=
  { id := u.id.getD position.id
    symbol := u.symbol.getD position.symbol
    side := u.side.getD position.side
    entryPrice := u.entryPrice.getD position.entryPrice
    quantity := u.quantity.getD position.quantity
    currentPrice := u.currentPrice.getD position.currentPrice
    value := u.value.getD position.value
    unrealizedPnl := u.unrealizedPnl.getD position.unrealizedPnl
    realizedPnl := u.realizedPnl.getD position.realizedPnl
    stopLoss := u.stopLoss.getD position.stopLoss
    takeProfit := u.takeProfit.getD position.takeProfit
    timestamp := u.timestamp.getD position.timestamp }

/-- `PortfolioManager.updatePosition`: throws `Position … not found`
before touching anything when the id is unknown. -/
def updatePosition (st : PortfolioState) (positionId : String)
    (updates : PositionUpdates) : Except String PortfolioState :=
  match mapGet st.positions positionId with
  | none => Except.error ("Position " ++ positionId ++ " not found")
  | some position =>
      Except.ok { st with
        positions := mapSet st.positions positionId
          (applyPositionUpdates position updates) }

/-- `PortfolioManager.recordPerformance`: push the trade, then drop the
oldest entry when the history exceeds 1000 entries. -/
def recordPerformance (hist : List ClosedTrade) (t : ClosedTrade) :
    List ClosedTrade :=
  let h := hist ++ [t]
  if h.length > 1000 then h.drop 1 else h

/-- `PortfolioManager.closePosition`.  `exitPrice` is the optional
argument; the effective price is
`exitPrice || position.currentPrice || position.entryPrice`.
`now` stands for `Date.now()` used in the trade record.  Throws
`Position … not found` (before any mutation) when the id is unknown. -/
def closePosition (st : PortfolioState) (positionId : String)
    (exitPrice : Option ℚ) (now : ℕ) : Except String PortfolioState :=
  match mapGet st.positions positionId with
  | none => Except.error ("Position " ++ positionId ++ " not found")
  | some position =>
      let price := jsOrQ exitPrice (jsOrQ position.currentPrice position.entryPrice)
      let pnl := calculatePnL position price
      let base := baseAsset position.symbol
      let quote := quoteAsset position.symbol
      let proceeds := price * position.quantity
      let balance :=
        if position.side = "BUY" then
          let bal := mapSet st.balance base (balGetD st.balance base - position.quantity)
          mapSet bal quote (balGetD bal quote + proceeds)
        else
          let bal := mapSet st.balance base (balGetD st.balance base + position.quantity)
          mapSet bal quote (balGetD bal quote - proceeds)
      let trade : ClosedTrade :=
        { positionId := positionId
          symbol := position.symbol
          side := position.side
          entryPrice := position.entryPrice
          exitPrice := price
          quantity := position.quantity
          pnl := pnl
          timestamp := now }
      Except.ok
        { positions := mapDelete st.positions positionId
          balance := balance
          performanceHistory := recordPerformance st.performanceHistory trade }

/-- `position.stopLoss && currentPrice <= position.stopLoss`
(truthiness: a missing or zero stop-loss never triggers). -/
def slTrigger (p : Position) (currentPrice : ℚ) : Bool :=
  match p.stopLoss with
  | none => false
  | some sl => decide (sl ≠ 0) && decide (currentPrice ≤ sl)

/-- `position.takeProfit && currentPrice >= position.takeProfit`. -/
def tpTrigger (p : Position) (currentPrice : ℚ) : Bool :=
  match p.takeProfit with
  | none => false
  | some tp => decide (tp ≠ 0) && decide (currentPrice ≥ tp)

/-- One iteration of the `updatePrices` loop: refresh the position's
`currentPrice`/`value`/`unrealizedPnl` when the price map has a truthy
price for its symbol, then run the stop-loss / take-profit check — the
same comparison for every position, whatever its `side`. -/
def updatePricesStep (now : ℕ) (prices : List (String × ℚ))
    (st : PortfolioState) (pid : String) : PortfolioState :=
  match mapGet st.positions pid with
  | none => st
  | some position =>
      match mapGet prices position.symbol with
      | none => st
      | some currentPrice =>
          if currentPrice = 0 then st
          else
            let updated := { position with
              currentPrice := some currentPrice
              value := some (currentPrice * position.quantity)
              unrealizedPnl := some (calculatePnL position currentPrice) }
            let st1 : PortfolioState :=
              { st with positions := mapSet st.positions pid updated }
            if slTrigger updated currentPrice then
              match closePosition st1 pid (some currentPrice) now with
              | Except.ok st2 => st2
              | Except.error _ => st1
            else if tpTrigger updated currentPrice then
              match closePosition st1 pid (some currentPrice) now with
              | Except.ok st2 => st2
              | Except.error _ => st1
            else st1

/-- `PortfolioManager.updatePrices`: the loop over
`this.positions.values()` (a position deleted by a protective close is
exactly the one currently being visited, so the iteration order is the
initial key list). -/
def updatePrices (now : ℕ) (prices : List (String × ℚ))
    (st : PortfolioState) : PortfolioState :=
  (st.positions.map Prod.fst).foldl (updatePricesStep now prices) st

/-! ## Performance metrics (`getPerformanceMetrics`) -/

/-- `trades.reduce((sum, t) => sum + t.pnl, 0)`. -/
def pnlSum (trades : List ClosedTrade) : ℚ :=
  trades.foldl (fun sum t => sum + t.pnl) 0

/-- `trades.filter(t => t.pnl > 0)` summed — the gross profit. -/
def grossProfitOf (trades : List ClosedTrade) : ℚ :=
  pnlSum (trades.filter fun t => decide (t.pnl > 0))

/-- `Math.abs(losingTrades.reduce(...))` — the gross loss magnitude. -/
def grossLossOf (trades : List ClosedTrade) : ℚ :=
  |pnlSum (trades.filter fun t => decide (t.pnl < 0))|

/-- `Math.max(...xs)` over a non-empty spread (the code only evaluates
it under a `trades.length > 0` guard). -/
def listMaxQ : List ℚ → ℚ
  | [] => 0
  | x :: xs => xs.foldl max x

/-- `Math.min(...xs)` over a non-empty spread. -/
def listMinQ : List ℚ → ℚ
  | [] => 0
  | x :: xs => xs.foldl min x

/-- Accumulator of the max-drawdown walk: running peak, running
maximum drawdown, running cumulative P&L. -/
structure DDAcc where
  peak : ℚ
  maxDrawdown : ℚ
  runningTotal : ℚ
deriving DecidableEq, Repr

/-- One step of the max-drawdown walk (peak is raised before the
drawdown for the step is computed, as in the source). -/
def ddStep (acc : DDAcc) (t : ClosedTrade) : DDAcc :=
  let runningTotal := acc.runningTotal + t.pnl
  let peak := if runningTotal > acc.peak then runningTotal else acc.peak
  let drawdown := if peak > 0 then (peak - runningTotal) / peak else 0
  { peak := peak
    maxDrawdown := if drawdown > acc.maxDrawdown then drawdown else acc.maxDrawdown
    runningTotal := runningTotal }

/-- The equity curve: cumulative P&L on top of the starting equity of
10000, one entry per trade. -/
def equityCurveOf (trades : List ClosedTrade) : List ℚ :=
  (trades.foldl
    (fun (acc : List ℚ × ℚ) t =>
      let equity := acc.2 + t.pnl
      (acc.1 ++ [equity], equity))
    ([], 10000)).1

/-- The object returned by `getPerformanceMetrics`.  The last five
fields are written only by the non-empty branch of the source; in the
empty-history branch they are absent from the returned object
(`undefined`), which is modelled as `none`. -/
structure PerfMetrics where
  totalTrades : ℕ
  winningTrades : ℕ
  losingTrades : ℕ
  winRate : ℚ
  totalPnL : ℚ
  averagePnL : ℚ
  bestTrade : ℚ
  worstTrade : ℚ
  profitFactor : ℚ
  expectancy : ℚ
  averageWin : Option ℚ
  averageLoss : Option ℚ
  sharpeRatio : Option ℚ
  maxDrawdown : Option ℚ
  equityCurve : Option (List ℚ)
deriving DecidableEq, Repr

/-- `PortfolioManager.getPerformanceMetrics`, as a pure function of
the trade history.  `sqrt` stands for `Math.sqrt` (the only
non-rational operation on this path). -/
def getPerformanceMetrics (sqrt : ℚ → ℚ) (trades : List ClosedTrade) :
    PerfMetrics :=
  if trades.length = 0 then
    { totalTrades := 0
      winningTrades := 0
      losingTrades := 0
      winRate := 0
      totalPnL := 0
      averagePnL := 0
      bestTrade := 0
      worstTrade := 0
      profitFactor := 0
      expectancy := 0
      averageWin := none
      averageLoss := none
      sharpeRatio := none
      maxDrawdown := none
      equityCurve := none }
  else
    let winningTrades := trades.filter fun t => decide (t.pnl > 0)
    let losingTrades := trades.filter fun t => decide (t.pnl < 0)
    let totalPnL := pnlSum trades
    let grossProfit := grossProfitOf trades
    let grossLoss := grossLossOf trades
    let returns := trades.map (fun t => t.pnl)
    let avgReturn :=
      if returns.length > 0 then returns.foldl (· + ·) 0 / (returns.length : ℚ) else 0
    let variance :=
      if returns.length > 0 then
        (returns.foldl (fun sum ret => sum + (ret - avgReturn) ^ 2) 0) / (returns.length : ℚ)
      else 0
    let stdDev := sqrt variance
    let sharpeRatio := if stdDev > 0 then avgReturn / stdDev * sqrt 252 else 0
    let maxDrawdown :=
      (trades.foldl ddStep { peak := 0, maxDrawdown := 0, runningTotal := 0 }).maxDrawdown
    { totalTrades := trades.length
      winningTrades := winningTrades.length
      losingTrades := losingTrades.length
      winRate :=
        if trades.length > 0 then (winningTrades.length : ℚ) / trades.length else 0
      totalPnL := totalPnL
      averagePnL := if trades.length > 0 then totalPnL / trades.length else 0
      bestTrade := if trades.length > 0 then listMaxQ (trades.map (fun t => t.pnl)) else 0
      worstTrade := if trades.length > 0 then listMinQ (trades.map (fun t => t.pnl)) else 0
      profitFactor := if grossLoss > 0 then grossProfit / grossLoss else 0
      expectancy := if trades.length > 0 then totalPnL / trades.length else 0
      averageWin :=
        some (if winningTrades.length > 0 then grossProfit / winningTrades.length else 0)
      averageLoss :=
        some (if losingTrades.length > 0 then grossLoss / losingTrades.length else 0)
      sharpeRatio := some sharpeRatio
      maxDrawdown := some maxDrawdown
      equityCurve := some (equityCurveOf trades) }

/-! ## Export / import (`exportPortfolio`, `importPortfolio`) -/

/-- The per-position object built by `exportPortfolio`: only these
seven fields are serialised. -/
structure ExportedPosition where
  id : String
  symbol : String
  side : String
  quantity : ℚ
  entryPrice : ℚ
  currentPrice : Option ℚ
  unrealizedPnl : Option ℚ
deriving DecidableEq, Repr

/-- The object returned by `exportPortfolio`. -/
structure PortfolioExport where
  timestamp : ℕ
  balance : List (String × ℚ)
  positions : List ExportedPosition
  performance : PerfMetrics
  recentTrades : List ClosedTrade
deriving DecidableEq, Repr

/-- The projection applied to each open position by `exportPortfolio`. -/
def exportPosition (p : Position) : ExportedPosition :=
  { id := p.id
    symbol := p.symbol
    side := p.side
    quantity := p.quantity
    entryPrice := p.entryPrice
    currentPrice := p.currentPrice
    unrealizedPnl := p.unrealizedPnl }

/-- `PortfolioManager.exportPortfolio` (`now` is `Date.now()`).
`recentTrades` is `slice(-20)` — the last twenty trades. -/
def exportPortfolio (sqrt : ℚ → ℚ) (now : ℕ) (st : PortfolioState) :
    PortfolioExport :=
  { timestamp := now
    balance := st.balance
    positions := (st.positions.map Prod.snd).map exportPosition
    performance := getPerformanceMetrics sqrt st.performanceHistory
    recentTrades :=
      st.performanceHistory.drop (st.performanceHistory.length - 20) }

/-- The position object stored by `importPortfolio`: it is the
exported object itself, so every non-serialised field reads as
`undefined`. -/
def importPosition (p : ExportedPosition) : Position :=
  { id := p.id
    symbol := p.symbol
    side := p.side
    entryPrice := p.entryPrice
    quantity := p.quantity
    currentPrice := p.currentPrice
    value := none
    unrealizedPnl := p.unrealizedPnl
    realizedPnl := none
    stopLoss := none
    takeProfit := none
    timestamp := none }

/-- `PortfolioManager.importPortfolio`: clear everything, then re-set
the balance entries, re-set the positions keyed by `pos.id`, and take
`recentTrades` as the whole history.  (The `performance` field of the
export is ignored.) -/
def importPortfolio (data : PortfolioExport) : PortfolioState :=
  { positions :=
      data.positions.foldl (fun m p => mapSet m p.id (importPosition p)) []
    balance :=
      data.balance.foldl (fun b kv => mapSet b kv.1 kv.2) []
    performanceHistory := data.recentTrades }

/-! ## Risk gate (`src/risk/RiskManager.ts`) -/

/-- The risk parameters loaded by `loadRiskParameters` (defaults shown)
together with the mutable `currentDrawdown`. -/
structure RiskState where
  maxPositionSize : ℚ := 10000
  maxDrawdown : ℚ := 0.2
  riskPerTrade : ℚ := 0.02
  maxOpenPositions : ℕ := 10
  currentDrawdown : ℚ := 0
deriving DecidableEq, Repr

/-- `signal.metadata?.volatility` (optional chaining). -/
def metaVolatility (signal : Signal) : Option ℚ :=
  signal.metadata.bind (fun m => m.volatility)

/-- The curated list of known-correlated asset pairs. -/
def highCorrelationPairs : List (List String) :=
  [["BTC", "ETH"], ["SOL", "AVAX"], ["MATIC", "BNB"]]

/-- `RiskManager.calculateBaseCorrelation`: same base asset → 1.0,
curated pair → 0.7, otherwise 0.3. -/
def calculateBaseCorrelation (symbol1 symbol2 : String) : ℚ :=
  let base1 := baseAsset symbol1
  let base2 := baseAsset symbol2
  if base1 = base2 then 1
  else if highCorrelationPairs.any
      (fun pair => pair.contains base1 && pair.contains base2) then 0.7
  else 0.3

/-- `RiskManager.getOpenPositionsCount` — a private mock that always
returns the constant 3 (the comment in the source reads "Mock methods
- would connect to actual data sources"). -/
def getOpenPositionsCount : ℕ := 3

/-- `RiskManager.getOpenPositions` — a private mock that always
returns no positions. -/
def getOpenPositions : List Position := []

/-- `RiskManager.checkCorrelationRisk`: the maximum of
`|getCorrelation(symbol, position.symbol)|` over the open positions
returned by the mocked `getOpenPositions` — which is always the empty
list, so the fold always returns the initial 0.  (`getCorrelation`
memoizes `calculateBaseCorrelation`, which is deterministic, so the
cache is semantically transparent.) -/
def checkCorrelationRisk (symbol : String) : ℚ :=
  getOpenPositions.foldl
    (fun maxCorrelation position =>
      max maxCorrelation |calculateBaseCorrelation symbol position.symbol|) 0

/-- `RiskManager.calculateKellyFraction`:
`f = (p·b − q)/b` with `b = |targetPrice − price| / |price − stopLoss|`,
scaled by the 0.25 safety factor and floored at 0. -/
def calculateKellyFraction (signal : Signal) : ℚ :=
  let winProbability := signal.confidence
  let lossProbability := 1 - winProbability
  let winAmount := |signal.targetPrice - signal.price|
  let lossAmount := |signal.price - signal.stopLoss|
  let odds := winAmount / lossAmount
  let kellyFraction := (winProbability * odds - lossProbability) / odds
  max 0 (kellyFraction * 0.25)

/-- `RiskManager.validateSignal`.  The position-dependent gates read
the mocked accessors: `getOpenPositionsCount` (the constant 3) for the
count check and, through `checkCorrelationRisk`, `getOpenPositions`
(the empty list) for the correlation check — so neither gate ever sees
the real open positions of the ledger.  The checks short-circuit in source
order. -/
def validateSignal (rs : RiskState) (signal : Signal) : Bool :=
  if rs.currentDrawdown > rs.maxDrawdown then false
  else if getOpenPositionsCount ≥ rs.maxOpenPositions then false
  else if checkCorrelationRisk signal.symbol > 0.8 then false
  else if signal.confidence < 0.65 then false
  else if jsOrQ (metaVolatility signal) 0 > 0.5 then false
  else if calculateKellyFraction signal < 0.01 then false
  else true

/-- `RiskManager.getVolatilityMultiplier`
(`signal.metadata?.volatility || 0.1`). -/
def getVolatilityMultiplier (signal : Signal) : ℚ :=
  let volatility := jsOrQ (metaVolatility signal) 0.1
  if volatility > 0.3 then 0.5
  else if volatility > 0.2 then 0.7
  else if volatility > 0.1 then 0.9
  else 1

/-- `Math.round(x * 100) / 100` (JavaScript `Math.round` rounds half
toward positive infinity). -/
def roundTo2 (x : ℚ) : ℚ :=
  ((⌊x * 100 + 1 / 2⌋ : ℤ) : ℚ) / 100

/-- `RiskManager.calculatePositionSize` (`accountBalance` is the value
behind the `getAccountBalance` accessor). -/
def calculatePositionSize (rs : RiskState) (accountBalance : ℚ)
    (signal : Signal) : ℚ :=
  let riskAmount := accountBalance * rs.riskPerTrade
  let stopLossDistance := |signal.price - signal.stopLoss|
  let positionSize := riskAmount / stopLossDistance
  let positionSize := positionSize * min (calculateKellyFraction signal) 0.25
  let positionSize := positionSize * getVolatilityMultiplier signal
  let positionSize := min positionSize rs.maxPositionSize
  if positionSize < 10 then 0 else roundTo2 positionSize

/-- A completed trade as consumed by `calculateProfitFactor`
(`t.profit`). -/
structure CompletedTrade where
  profit : ℚ
deriving DecidableEq, Repr

/-- `trades.reduce((sum, t) => sum + t.profit, 0)`. -/
def profitSum (trades : List CompletedTrade) : ℚ :=
  trades.foldl (fun sum t => sum + t.profit) 0

/-- Gross profit of `calculateProfitFactor`. -/
def cGrossProfit (trades : List CompletedTrade) : ℚ :=
  profitSum (trades.filter fun t => decide (t.profit > 0))

/-- Gross loss magnitude of `calculateProfitFactor`. -/
def cGrossLoss (trades : List CompletedTrade) : ℚ :=
  |profitSum (trades.filter fun t => decide (t.profit < 0))|

/-- `RiskManager.calculateProfitFactor`: `grossProfit / grossLoss`
when there is any loss, otherwise `grossProfit` itself. -/
def calculateProfitFactor (trades : List CompletedTrade) : ℚ :=
  if cGrossLoss trades > 0 then cGrossProfit trades / cGrossLoss trades
  else cGrossProfit trades

/-! ## Trading engine (`TradingEngine`) -/

/-- `TradingEngine.calculateStopLoss`: 2% below price for an `up`
forecast, 2% above otherwise. -/
def calculateStopLoss (price : ℚ) (direction : Direction) : ℚ :=
  if direction = Direction.up then price * (1 - 0.02) else price * (1 + 0.02)

/-- `TradingEngine.calculateTakeProfit`: 5% above price for an `up`
forecast, 5% below otherwise. -/
def calculateTakeProfit (price : ℚ) (direction : Direction) : ℚ :=
  if direction = Direction.up then price * (1 + 0.05) else price * (1 - 0.05)

/-- `TradingEngine.analyzeSignal`.  `now` is `Date.now()` and `sigId`
the value of `generateSignalId()` (timestamp plus random suffix).
Returns `none` below the 0.65 confidence threshold or below the 1%
predicted-change threshold; otherwise builds the signal, mapping an
`up` forecast to `BUY` and any other forecast to `SELL`. -/
def analyzeSignal (pair : String) (prediction : Prediction)
    (marketData : MarketData) (now : ℕ) (sigId : String) : Option Signal :=
  if prediction.confidence < 0.65 then none
  else
    let currentPrice := marketData.price
    let priceChange := (prediction.predictedPrice - currentPrice) / currentPrice * 100
    if |priceChange| < 1 then none
    else
      some
        { id := sigId
          symbol := pair
          action := if prediction.direction = Direction.up then "BUY" else "SELL"
          price := currentPrice
          targetPrice := prediction.predictedPrice
          stopLoss := calculateStopLoss currentPrice prediction.direction
          takeProfit := calculateTakeProfit currentPrice prediction.direction
          confidence := prediction.confidence
          timeframe := prediction.timeframe
          timestamp := now
          metadata := some
            { priceChange := some priceChange
              volume := some marketData.volume
              volatility := some marketData.volatility
              rsi := marketData.indicators.bind (fun i => i.rsi)
              macd := marketData.indicators.bind (fun i => i.macd) } }

/-- An order as returned by the venue (`exchange.createOrder`). -/
structure Order where
  id : String
  price : ℚ
  amount : ℚ
deriving DecidableEq, Repr

/-- Observable side effects of one iteration of the `executeSignals`
loop, in order of occurrence. -/
inductive ExecEffect where
  | sizeComputed (symbol : String) (size : ℚ)
  | orderSubmitted (symbol : String) (side : String) (amount price : ℚ)
  | positionAdded (id : String)
deriving DecidableEq, Repr

/-- One iteration of the `executeSignals` drain loop for a dequeued
signal.  `venueFill` abstracts `executeOrder`'s venue interaction
(`none` = the order failed).  A signal older than five minutes
(`now − signal.timestamp > 300000`, in milliseconds) is discarded
before anything else happens; otherwise the position size is computed,
a zero size skips the signal, and a filled order is registered with
the ledger. -/
def processSignal (venueFill : Signal → ℚ → Option Order) (rs : RiskState)
    (accountBalance : ℚ) (now : ℕ) (st : PortfolioState) (signal : Signal) :
    PortfolioState × List ExecEffect :=
  if now - signal.timestamp > 300000 then (st, [])
  else
    let size := calculatePositionSize rs accountBalance signal
    if size = 0 then (st, [ExecEffect.sizeComputed signal.symbol size])
    else
      match venueFill signal size with
      | none =>
          (st,
           [ExecEffect.sizeComputed signal.symbol size,
            ExecEffect.orderSubmitted signal.symbol signal.action size signal.price])
      | some order =>
          (addPosition st
            { id := order.id
              symbol := signal.symbol
              side := signal.action
              entryPrice := order.price
              quantity := order.amount
              stopLoss := some signal.stopLoss
              takeProfit := some signal.takeProfit
              timestamp := some now },
           [ExecEffect.sizeComputed signal.symbol size,
            ExecEffect.orderSubmitted signal.symbol signal.action size signal.price,
            ExecEffect.positionAdded order.id])

/-- `TradingEngine.executeSignals`: drain the FIFO queue. -/
def executeSignals (venueFill : Signal → ℚ → Option Order) (rs : RiskState)
    (accountBalance : ℚ) (now : ℕ) (st : PortfolioState)
    (queue : List Signal) : PortfolioState × List ExecEffect :=
  queue.foldl
    (fun acc signal =>
      let r := processSignal venueFill rs accountBalance now acc.1 signal
      (r.1, acc.2 ++ r.2))
    (st, [])

/-! ## Ledger traces (for the P&L-conservation analysis) -/

/-- An operation on the portfolio ledger: `open` is `addPosition`,
`close` is `closePosition` (with its optional exit price and the
`Date.now()` value used in the trade record). -/
inductive LedgerOp where
  | openPos (p : Position)
  | closePos (positionId : String) (exitPrice : Option ℚ) (now : ℕ)
deriving DecidableEq, Repr

/-- Apply one ledger operation.  A `closePosition` that throws
(`Position … not found`) leaves the ledger unchanged. -/
def applyOp (st : PortfolioState) : LedgerOp → PortfolioState
  | LedgerOp.openPos p => addPosition st p
  | LedgerOp.closePos pid ep now =>
      match closePosition st pid ep now with
      | Except.ok st2 => st2
      | Except.error _ => st

/-- Run a sequence of ledger operations. -/
def runOps (st : PortfolioState) (ops : List LedgerOp) : PortfolioState :=
  ops.foldl applyOp st

/-- A trace is well formed when every `open` uses an id that is not
currently open (the engine keys positions by fresh venue order ids)
and a proper trading pair whose base and quote assets differ (as every
`BASE/QUOTE` symbol of the engine does). -/
def wfOps : PortfolioState → List LedgerOp → Bool
  | _, [] => true
  | st, op :: rest =>
      (match op with
       | LedgerOp.openPos p =>
           (mapGet st.positions p.id).isNone
             && decide (baseAsset p.symbol ≠ quoteAsset p.symbol)
       | LedgerOp.closePos _ _ _ => true)
      && wfOps (applyOp st op) rest

/-- `+1` for a BUY position, `−1` otherwise (matching the
`side === 'BUY'` branches of the ledger). -/
def sideSign (side : String) : ℚ :=
  if side = "BUY" then 1 else -1

/-- Quote-currency cost of an open position, signed by side. -/
def posQuoteTerm (c : String) (p : Position) : ℚ :=
  if c = quoteAsset p.symbol then sideSign p.side * (p.entryPrice * p.quantity) else 0

/-- Base-currency quantity of an open position, signed by side. -/
def posBaseTerm (c : String) (p : Position) : ℚ :=
  if c = baseAsset p.symbol then sideSign p.side * p.quantity else 0

/-- Signed quote-currency exposure of the open positions. -/
def quoteExposure (st : PortfolioState) (c : String) : ℚ :=
  (st.positions.map fun e => posQuoteTerm c e.2).sum

/-- Signed base-currency exposure of the open positions. -/
def baseExposure (st : PortfolioState) (c : String) : ℚ :=
  (st.positions.map fun e => posBaseTerm c e.2).sum

/-- Realized P&L recorded in the trade history for quote currency `c`. -/
def histPnlSum (st : PortfolioState) (c : String) : ℚ :=
  (st.performanceHistory.map fun t => if c = quoteAsset t.symbol then t.pnl else 0).sum

/-- The conserved ledger quantity for currency `c`: cash plus signed
open exposure minus recorded realized P&L. -/
def ledgerInv (st : PortfolioState) (c : String) : ℚ :=
  balGetD st.balance c + quoteExposure st c - baseExposure st c - histPnlSum st c

/-! ## Concrete instances used in the theorems -/

/-- A SELL position with the stop/target geometry the engine itself
produces (stop 2% above entry, target 5% below). -/
def sellPosC1 : Position :=
  { id := "p1", symbol := "BTC/USDT", side := "SELL", entryPrice := 100, quantity := 1,
    stopLoss := some 102, takeProfit := some 95 }

/-- A one-position ledger holding `sellPosC1`. -/
def stC1 : PortfolioState :=
  { positions := [("p1", sellPosC1)], balance := [("USDT", 200)],
    performanceHistory := [] }

/-- A BUY position carrying stop-loss, take-profit and open timestamp. -/
def buyPosC2 : Position :=
  { id := "p1", symbol := "BTC/USDT", side := "BUY", entryPrice := 100, quantity := 1,
    stopLoss := some 98, takeProfit := some 105, timestamp := some 1 }

/-- A ledger holding `buyPosC2`. -/
def stC2 : PortfolioState :=
  { positions := [("p1", buyPosC2)], balance := [("USDT", 99), ("BTC", 1)],
    performanceHistory := [] }

/-- A confident `neutral` forecast predicting a 2% move. -/
def predC4 : Prediction :=
  { confidence := 0.7, direction := Direction.neutral, predictedPrice := 102,
    timeframe := "1h", timestamp := 0 }

/-- Market data at price 100. -/
def mdC4 : MarketData :=
  { symbol := "BTC/USDT", price := 100, volume := 1000, volatility := 0.1, timestamp := 0 }

/-- A single winning closed trade (P&L +5). -/
def twC6 : ClosedTrade :=
  { positionId := "p1", symbol := "BTC/USDT", side := "BUY", entryPrice := 100,
    exitPrice := 105, quantity := 1, pnl := 5, timestamp := 0 }

/-- A winning and a losing completed trade for the RiskManager metric. -/
def ctsC6 : List CompletedTrade := [{ profit := 5 }, { profit := -2 }]

/-- An open BUY position on BTC/USDT. -/
def posC5 : Position :=
  { id := "p0", symbol := "BTC/USDT", side := "BUY", entryPrice := 100, quantity := 1 }

/-- A fresh high-confidence BUY signal for the same instrument. -/
def sigC5 : Signal :=
  { id := "s1", symbol := "BTC/USDT", action := "BUY", price := 100, targetPrice := 105,
    stopLoss := 98, takeProfit := 105, confidence := 0.9, timeframe := "1h", timestamp := 0,
    metadata := some { volatility := some 0.1 } }

/-- A ledger holding the open position `posC5`. -/
def stC5 : PortfolioState :=
  { positions := [("p0", posC5)], balance := [("USDT", 200)],
    performanceHistory := [] }

/-- A venue that fills every order at the signal price. -/
def venueC5 : Signal → ℚ → Option Order :=
  fun signal amount => some { id := "ord1", price := signal.price, amount := amount }

/-- The sizing scenario of the spec: price 100, stop 98, target 105,
confidence 0.8. -/
def sigC8 : Signal :=
  { id := "s2", symbol := "BTC/USDT", action := "BUY", price := 100, targetPrice := 105,
    stopLoss := 98, takeProfit := 105, confidence := 0.8, timeframe := "1h", timestamp := 0 }

/-- A signal generated at epoch millisecond 0 (stale by minute 6). -/
def sigC9 : Signal :=
  { id := "s3", symbol := "BTC/USDT", action := "BUY", price := 100, targetPrice := 105,
    stopLoss := 98, takeProfit := 105, confidence := 0.9, timeframe := "1h", timestamp := 0 }

/-- The completely empty ledger state (what `importPortfolio` of an
empty export produces). -/
def emptyState : PortfolioState :=
  { positions := [], balance := [], performanceHistory := [] }

/-- A BUY of 1 BTC at 1 USDT, reopened repeatedly in the conservation
counterexample. -/
def cxPos : Position :=
  { id := "p1", symbol := "BTC/USDT", side := "BUY", entryPrice := 1, quantity := 1 }

/-- The trade record produced by closing `cxPos` at price 2. -/
def cxTrade : ClosedTrade :=
  { positionId := "p1", symbol := "BTC/USDT", side := "BUY", entryPrice := 1,
    exitPrice := 2, quantity := 1, pnl := 1, timestamp := 0 }

/-- `n` open/close round trips of `cxPos`, each realizing +1 USDT. -/
def repOps : ℕ → List LedgerOp
  | 0 => []
  | n + 1 => repOps n ++ [LedgerOp.openPos cxPos, LedgerOp.closePos "p1" (some 2) 0]

/-- One open/close round trip (used as a conservation witness). -/
def demoOps : List LedgerOp := repOps 1

/-! ## Lemmas about the map model -/

theorem mapGet_mapSet_self {α : Type} (m : List (String × α)) (k : String) (v : α) :
    mapGet (mapSet m k v) k = some v := by
  induction m with
  | nil => simp [mapSet, mapGet]
  | cons e rest ih =>
      by_cases h : e.1 = k
      · simp [mapSet, mapGet, h]
      · simp [mapSet, mapGet, h, ih]

theorem mapGet_mapSet_ne {α : Type} (m : List (String × α)) (k c : String) (v : α)
    (h : c ≠ k) : mapGet (mapSet m k v) c = mapGet m c := by
  induction m with
  | nil =>
      simp only [mapSet, mapGet]
      rw [if_neg (fun h2 => h h2.symm)]
  | cons e rest ih =>
      by_cases he : e.1 = k
      · simp only [mapSet, if_pos he, mapGet]
        rw [if_neg (fun h2 : k = c => h h2.symm),
          if_neg (fun h2 : e.1 = c => h (he.symm.trans h2).symm)]
      · simp only [mapSet, if_neg he, mapGet]
        by_cases hc : e.1 = c
        · rw [if_pos hc, if_pos hc]
        · rw [if_neg hc, if_neg hc, ih]

theorem mapSet_of_get_none {α : Type} (m : List (String × α)) (k : String) (v : α)
    (h : mapGet m k = none) : mapSet m k v = m ++ [(k, v)] := by
  induction m with
  | nil => simp [mapSet]
  | cons e rest ih =>
      by_cases he : e.1 = k
      · simp [mapGet, he] at h
      · simp only [mapGet, if_neg he] at h
        simp [mapSet, he, ih h]

theorem keys_mapSet_of_get_some {α : Type} (m : List (String × α)) (k : String)
    (v w : α) (h : mapGet m k = some w) :
    (mapSet m k v).map Prod.fst = m.map Prod.fst := by
  induction m with
  | nil => simp [mapGet] at h
  | cons e rest ih =>
      by_cases he : e.1 = k
      · simp [mapSet, he]
      · simp only [mapGet, if_neg he] at h
        simp [mapSet, he, ih h]

theorem mapGet_eq_none_of_not_mem {α : Type} (m : List (String × α)) (k : String)
    (h : k ∉ m.map Prod.fst) : mapGet m k = none := by
  induction m with
  | nil => simp [mapGet]
  | cons e rest ih =>
      simp only [List.map_cons, List.mem_cons] at h
      push_neg at h
      simp only [mapGet]
      rw [if_neg (fun h2 : e.1 = k => h.1 h2.symm)]
      exact ih h.2

theorem mapGet_ne_none_of_mem {α : Type} (m : List (String × α)) (k : String)
    (h : k ∈ m.map Prod.fst) : mapGet m k ≠ none := by
  induction m with
  | nil => simp at h
  | cons e rest ih =>
      by_cases he : e.1 = k
      · simp [mapGet, he]
      · simp only [List.map_cons, List.mem_cons] at h
        rcases h with h | h
        · exact absurd h.symm he
        · simp only [mapGet, if_neg he]
          exact ih h

theorem mem_keys_of_mapGet_eq_some {α : Type} (m : List (String × α)) (k : String)
    (w : α) (h : mapGet m k = some w) : k ∈ m.map Prod.fst := by
  induction m with
  | nil => simp [mapGet] at h
  | cons e rest ih =>
      by_cases he : e.1 = k
      · simp [he.symm]
      · simp only [mapGet, if_neg he] at h
        simp [ih h]

theorem mapGet_mapDelete_self {α : Type} (m : List (String × α)) (k : String)
    (hnd : (m.map Prod.fst).Nodup) : mapGet (mapDelete m k) k = none := by
  induction m with
  | nil => simp [mapDelete, mapGet]
  | cons e rest ih =>
      simp only [List.map_cons, List.nodup_cons] at hnd
      by_cases he : e.1 = k
      · simp only [mapDelete, if_pos he]
        exact mapGet_eq_none_of_not_mem rest k (he ▸ hnd.1)
      · simp only [mapDelete, if_neg he, mapGet, if_neg he]
        exact ih hnd.2

theorem keys_mapDelete_sublist {α : Type} (m : List (String × α)) (k : String) :
    ((mapDelete m k).map Prod.fst).Sublist (m.map Prod.fst) := by
  induction m with
  | nil => simp [mapDelete]
  | cons e rest ih =>
      by_cases he : e.1 = k
      · simp only [mapDelete, if_pos he, List.map_cons]
        exact List.sublist_cons_self _ _
      · simp only [mapDelete, if_neg he, List.map_cons]
        exact ih.cons₂ e.1

theorem nodup_keys_mapDelete {α : Type} (m : List (String × α)) (k : String)
    (hnd : (m.map Prod.fst).Nodup) : ((mapDelete m k).map Prod.fst).Nodup :=
  (keys_mapDelete_sublist m k).nodup hnd

theorem nodup_keys_mapSet {α : Type} (m : List (String × α)) (k : String) (v : α)
    (hnd : (m.map Prod.fst).Nodup) : ((mapSet m k v).map Prod.fst).Nodup := by
  match h : mapGet m k with
  | some w => rw [keys_mapSet_of_get_some m k v w h]; exact hnd
  | none =>
      rw [mapSet_of_get_none m k v h]
      simp only [List.map_append, List.map_cons, List.map_nil]
      rw [List.nodup_append]
      refine ⟨hnd, List.nodup_singleton _, ?_⟩
      intro a ha hb
      simp only [List.mem_singleton] at hb
      subst hb
      exact mapGet_ne_none_of_mem m a ha h

/-! ## Claim theorems -/

/-- C10: calling `closePosition` or `updatePosition` with an unknown
position id fails with the `Position … not found` error before any
mutation — in this embedding both functions return the error without
producing a new state, so the positions map, the balance map and the
trade history are untouched. -/
theorem missing_position_id_errors (st : PortfolioState) (pid : String)
    (exitPrice : Option ℚ) (now : ℕ) (updates : PositionUpdates)
    (h : mapGet st.positions pid = none) :
    closePosition st pid exitPrice now =
        Except.error ("Position " ++ pid ++ " not found") ∧
      updatePosition st pid updates =
        Except.error ("Position " ++ pid ++ " not found") := by
  constructor
  · unfold closePosition
    rw [h]
  · unfold updatePosition
    rw [h]

/-- Witness for C10 at a concrete unknown id. -/
theorem missing_position_id_errors_witness :
    closePosition initialState "p9" none 0 =
        Except.error ("Position " ++ "p9" ++ " not found") ∧
      updatePosition initialState "p9" {} =
        Except.error ("Position " ++ "p9" ++ " not found") :=
  missing_position_id_errors initialState "p9" none 0 {} rfl

/-- C9: a dequeued signal older than five minutes
(`now − signal.timestamp > 300000` ms) is discarded: the ledger state
is unchanged and no effect — no position-size computation, no order
submission, no position registration — is produced. -/
theorem stale_signal_discarded (venueFill : Signal → ℚ → Option Order)
    (rs : RiskState) (accountBalance : ℚ) (now : ℕ) (st : PortfolioState)
    (signal : Signal) (h : now - signal.timestamp > 300000) :
    processSignal venueFill rs accountBalance now st signal = (st, []) := by
  unfold processSignal
  rw [if_pos h]

/-- Witness for C9: a signal from millisecond 0 executed at
millisecond 300001. -/
theorem stale_signal_discarded_witness :
    processSignal (fun _ _ => none) {} 10000 300001 initialState sigC9 =
      (initialState, []) :=
  stale_signal_discarded (fun _ _ => none) {} 10000 300001 initialState sigC9
    (by decide)

/-- C3 (counterexample): on an empty trade history the returned
metrics object does not contain `sharpeRatio`, `maxDrawdown`,
`averageWin`, `averageLoss` or `equityCurve` at all — they read as
`undefined` (`none`), not as the zeros the claim asserts. -/
theorem empty_metrics_fields_absent :
    (getPerformanceMetrics (fun q => q) []).sharpeRatio = none ∧
      (getPerformanceMetrics (fun q => q) []).maxDrawdown = none ∧
      (getPerformanceMetrics (fun q => q) []).averageWin = none ∧
      (getPerformanceMetrics (fun q => q) []).averageLoss = none ∧
      (getPerformanceMetrics (fun q => q) []).equityCurve = none :=
  ⟨rfl, rfl, rfl, rfl, rfl⟩

/-- C3 (amended): on an empty trade history every field of the
early-return object (`totalTrades` … `expectancy`) is zero and none of
them is `NaN`/`undefined`, while `averageWin`, `averageLoss`,
`sharpeRatio`, `maxDrawdown` and `equityCurve` are absent
(`undefined`) rather than zero. -/
theorem getPerformanceMetrics_empty (sqrt : ℚ → ℚ) :
    getPerformanceMetrics sqrt [] =
      { totalTrades := 0, winningTrades := 0, losingTrades := 0, winRate := 0,
        totalPnL := 0, averagePnL := 0, bestTrade := 0, worstTrade := 0,
        profitFactor := 0, expectancy := 0, averageWin := none,
        averageLoss := none, sharpeRatio := none, maxDrawdown := none,
        equityCurve := none } := rfl

/-- C4 (counterexample): a `neutral` forecast with confidence 0.70 and
a predicted +2% move passes both gates and produces a SELL signal —
not "no signal" as claimed. -/
theorem analyzeSignal_neutral_sells :
    predC4.direction = Direction.neutral ∧
      ¬ predC4.confidence < 0.65 ∧
      ¬ |(predC4.predictedPrice - mdC4.price) / mdC4.price * 100| < 1 ∧
      (analyzeSignal "BTC/USDT" predC4 mdC4 0 "sig1").map Signal.action =
        some "SELL" := by
  refine ⟨rfl, by with_unfolding_all decide, by with_unfolding_all decide,
    by with_unfolding_all decide⟩

/-- C4 (amended): for every forecast passing the confidence gate and
the magnitude gate, signal generation maps an `up` forecast to BUY and
every other forecast — `down` and `neutral` alike — to SELL; a
`neutral` forecast does not suppress the signal. -/
theorem analyzeSignal_direction_mapping (pair : String) (prediction : Prediction)
    (marketData : MarketData) (now : ℕ) (sigId : String)
    (h1 : ¬ prediction.confidence < 0.65)
    (h2 : ¬ |(prediction.predictedPrice - marketData.price) / marketData.price * 100| < 1) :
    (analyzeSignal pair prediction marketData now sigId).map Signal.action =
      some (if prediction.direction = Direction.up then "BUY" else "SELL") := by
  simp only [analyzeSignal]
  rw [if_neg h1, if_neg h2]
  rfl

/-- Witness for C4 (amended) at the concrete neutral forecast. -/
theorem analyzeSignal_direction_mapping_witness :
    (analyzeSignal "BTC/USDT" predC4 mdC4 0 "sig1").map Signal.action =
      some (if predC4.direction = Direction.up then "BUY" else "SELL") :=
  analyzeSignal_direction_mapping "BTC/USDT" predC4 mdC4 0 "sig1"
    (by with_unfolding_all decide) (by with_unfolding_all decide)

/-- C1: the stop-loss/take-profit check of `updatePrices` is not
directional.  `sellPosC1` is a SELL position (stop 102 above entry,
target 95 below); at the new price 96 neither mirrored SELL condition
holds (96 ≥ 102 and 96 ≤ 95 are both false), yet the ledger closes the
position — the BUY-oriented `price ≤ stopLoss` branch fires. -/
theorem updatePrices_sell_uses_buy_orientation :
    sellPosC1.side = "SELL" ∧
      ¬ (96 : ℚ) ≥ 102 ∧
      ¬ (96 : ℚ) ≤ 95 ∧
      (updatePrices 0 [("BTC/USDT", 96)] stC1).positions = [] ∧
      ((updatePrices 0 [("BTC/USDT", 96)] stC1).performanceHistory.map
        ClosedTrade.positionId) = ["p1"] := by
  refine ⟨rfl, by norm_num, by norm_num, by with_unfolding_all decide,
    by with_unfolding_all decide⟩

/-- C2 (counterexample): exporting and re-importing a ledger whose one
position carries `stopLoss := 98` yields a position whose `stopLoss`
is `undefined` — the round trip is not the identity. -/
theorem exportImport_drops_stopLoss :
    (mapGet stC2.positions "p1").map Position.stopLoss = some (some 98) ∧
      (mapGet (importPortfolio (exportPortfolio (fun q => q) 0 stC2)).positions
        "p1").map Position.stopLoss = some none ∧
      importPortfolio (exportPortfolio (fun q => q) 0 stC2) ≠ stC2 := by
  refine ⟨by with_unfolding_all decide, by with_unfolding_all decide,
    by with_unfolding_all decide⟩

/-! ### Sum lemmas for the profit-factor analysis -/

theorem pnlSum_foldl_shift (l : List ClosedTrade) (a : ℚ) :
    l.foldl (fun sum t => sum + t.pnl) a = a + pnlSum l := by
  induction l generalizing a with
  | nil => simp [pnlSum]
  | cons t l ih =>
      simp only [List.foldl_cons, pnlSum]
      rw [ih, ih (0 + t.pnl)]
      ring

theorem pnlSum_neg (l : List ClosedTrade) (hall : ∀ t ∈ l, t.pnl < 0)
    (hne : l ≠ []) : pnlSum l < 0 := by
  induction l with
  | nil => exact absurd rfl hne
  | cons t rest ih =>
      have hstep : pnlSum (t :: rest) = t.pnl + pnlSum rest := by
        simp only [pnlSum, List.foldl_cons]
        rw [pnlSum_foldl_shift]
        simp only [pnlSum]
        ring
      rcases List.eq_nil_or_concat rest with h | h
      · subst h
        simpa [pnlSum] using hall t (by simp)
      · have hrest : pnlSum rest < 0 :=
          ih (fun x hx => hall x (List.mem_cons_of_mem t hx))
            (by rcases h with ⟨l2, b, rfl⟩; simp)
        have ht : t.pnl < 0 := hall t (by simp)
        rw [hstep]
        linarith

theorem profitSum_foldl_shift (l : List CompletedTrade) (a : ℚ) :
    l.foldl (fun sum t => sum + t.profit) a = a + profitSum l := by
  induction l generalizing a with
  | nil => simp [profitSum]
  | cons t l ih =>
      simp only [List.foldl_cons, profitSum]
      rw [ih, ih (0 + t.profit)]
      ring

theorem profitSum_neg (l : List CompletedTrade) (hall : ∀ t ∈ l, t.profit < 0)
    (hne : l ≠ []) : profitSum l < 0 := by
  induction l with
  | nil => exact absurd rfl hne
  | cons t rest ih =>
      have hstep : profitSum (t :: rest) = t.profit + profitSum rest := by
        simp only [profitSum, List.foldl_cons]
        rw [profitSum_foldl_shift]
        simp only [profitSum]
        ring
      rcases List.eq_nil_or_concat rest with h | h
      · subst h
        simpa [profitSum] using hall t (by simp)
      · have hrest : profitSum rest < 0 :=
          ih (fun x hx => hall x (List.mem_cons_of_mem t hx))
            (by rcases h with ⟨l2, b, rfl⟩; simp)
        have ht : t.profit < 0 := hall t (by simp)
        rw [hstep]
        linarith

theorem grossLossOf_pos (trades : List ClosedTrade)
    (h : ∃ t ∈ trades, t.pnl < 0) : grossLossOf trades > 0 := by
  obtain ⟨t, ht, hlt⟩ := h
  have hmem : t ∈ trades.filter fun x => decide (x.pnl < 0) :=
    List.mem_filter.mpr ⟨ht, by simpa using hlt⟩
  have hne : (trades.filter fun x => decide (x.pnl < 0)) ≠ [] :=
    List.ne_nil_of_mem hmem
  have hall : ∀ x ∈ trades.filter fun x => decide (x.pnl < 0), x.pnl < 0 := by
    intro x hx
    simpa using (List.mem_filter.mp hx).2
  have := pnlSum_neg _ hall hne
  unfold grossLossOf
  rw [abs_of_neg this]
  linarith

theorem grossLossOf_eq_zero (trades : List ClosedTrade)
    (h : ¬ ∃ t ∈ trades, t.pnl < 0) : grossLossOf trades = 0 := by
  have hfil : (trades.filter fun x => decide (x.pnl < 0)) = [] := by
    rw [List.filter_eq_nil_iff]
    intro t ht
    simp only [decide_eq_true_eq]
    exact fun hlt => h ⟨t, ht, hlt⟩
  unfold grossLossOf
  rw [hfil]
  simp [pnlSum]

theorem cGrossLoss_pos (trades : List CompletedTrade)
    (h : ∃ t ∈ trades, t.profit < 0) : cGrossLoss trades > 0 := by
  obtain ⟨t, ht, hlt⟩ := h
  have hmem : t ∈ trades.filter fun x => decide (x.profit < 0) :=
    List.mem_filter.mpr ⟨ht, by simpa using hlt⟩
  have hne : (trades.filter fun x => decide (x.profit < 0)) ≠ [] :=
    List.ne_nil_of_mem hmem
  have hall : ∀ x ∈ trades.filter fun x => decide (x.profit < 0), x.profit < 0 := by
    intro x hx
    simpa using (List.mem_filter.mp hx).2
  have := profitSum_neg _ hall hne
  unfold cGrossLoss
  rw [abs_of_neg this]
  linarith

theorem cGrossLoss_eq_zero (trades : List CompletedTrade)
    (h : ¬ ∃ t ∈ trades, t.profit < 0) : cGrossLoss trades = 0 := by
  have hfil : (trades.filter fun x => decide (x.profit < 0)) = [] := by
    rw [List.filter_eq_nil_iff]
    intro t ht
    simp only [decide_eq_true_eq]
    exact fun hlt => h ⟨t, ht, hlt⟩
  unfold cGrossLoss
  rw [hfil]
  simp [profitSum]

/-- C6 (amended): with at least one losing trade both profit-factor
computations return `grossProfit / |grossLoss|`; with no losing trade
the RiskManager metric returns `grossProfit` itself (hence 0 exactly
when there is no profit), while the ledger metric of
`getPerformanceMetrics` returns 0 even when there is gross profit. -/
theorem profitFactor_formulas (trades : List ClosedTrade)
    (cts : List CompletedTrade) (sq : ℚ → ℚ) :
    ((∃ t ∈ cts, t.profit < 0) →
        calculateProfitFactor cts = cGrossProfit cts / cGrossLoss cts) ∧
      ((¬ ∃ t ∈ cts, t.profit < 0) →
        calculateProfitFactor cts = cGrossProfit cts) ∧
      ((∃ t ∈ trades, t.pnl < 0) →
        (getPerformanceMetrics sq trades).profitFactor =
          grossProfitOf trades / grossLossOf trades) ∧
      ((¬ ∃ t ∈ trades, t.pnl < 0) →
        (getPerformanceMetrics sq trades).profitFactor = 0) := by
  refine ⟨?_, ?_, ?_, ?_⟩
  · intro h
    unfold calculateProfitFactor
    rw [if_pos (cGrossLoss_pos cts h)]
  · intro h
    unfold calculateProfitFactor
    rw [if_neg (by rw [cGrossLoss_eq_zero cts h]; exact lt_irrefl 0)]
  · intro h
    obtain ⟨t, ht, hlt⟩ := h
    have hlen : ¬ trades.length = 0 := by
      simp only [List.length_eq_zero]
      exact List.ne_nil_of_mem ht
    simp only [getPerformanceMetrics, if_neg hlen]
    rw [if_pos (grossLossOf_pos trades ⟨t, ht, hlt⟩)]
  · intro h
    by_cases hlen : trades.length = 0
    · rw [List.length_eq_zero] at hlen
      subst hlen
      rfl
    · simp only [getPerformanceMetrics, if_neg hlen]
      rw [if_neg (by rw [grossLossOf_eq_zero trades h]; exact lt_irrefl 0)]

/-- Witness for C6 (amended): a mixed history gives 5/2; a
profit-only ledger history still gives 0. -/
theorem profitFactor_formulas_witness :
    calculateProfitFactor ctsC6 = 5 / 2 ∧
      (getPerformanceMetrics (fun q => q) [twC6]).profitFactor = 0 := by
  constructor
  · have h := (profitFactor_formulas [twC6] ctsC6 (fun q => q)).1
      ⟨{ profit := -2 }, by with_unfolding_all decide, by norm_num⟩
    rw [h]
    with_unfolding_all decide
  · exact (profitFactor_formulas [twC6] ctsC6 (fun q => q)).2.2.2
      (by intro ⟨t, ht, hlt⟩; simp [twC6] at ht; rw [ht] at hlt; norm_num at hlt)

/-- C6 (counterexample): with one winning trade and no losses the
claim demands profit factor `grossProfit = 5`, but
`getPerformanceMetrics` returns 0. -/
theorem profitFactor_no_losses_zero :
    grossProfitOf [twC6] = 5 ∧
      (getPerformanceMetrics (fun q => q) [twC6]).profitFactor = 0 ∧
      (0 : ℚ) ≠ 5 := by
  refine ⟨by with_unfolding_all decide, by with_unfolding_all decide, by norm_num⟩

/-- C8: for confidence in [0,1] and target/stop distinct from price,
the Kelly fraction `max(0, 0.25·((p·b − q)/b))` lies in `[0, 0.25]`,
and the multiplier `min(kellyFraction, 0.25)` applied by
`calculatePositionSize` therefore equals the Kelly fraction itself. -/
theorem kellyFraction_bounded (signal : Signal)
    (h0 : 0 ≤ signal.confidence) (h1 : signal.confidence ≤ 1)
    (ht : signal.targetPrice ≠ signal.price)
    (hs : signal.stopLoss ≠ signal.price) :
    0 ≤ calculateKellyFraction signal ∧
      calculateKellyFraction signal ≤ 0.25 ∧
      min (calculateKellyFraction signal) 0.25 = calculateKellyFraction signal := by
  have hwin : 0 < |signal.targetPrice - signal.price| :=
    abs_pos.mpr (sub_ne_zero.mpr ht)
  have hloss : 0 < |signal.price - signal.stopLoss| :=
    abs_pos.mpr (sub_ne_zero.mpr (Ne.symm hs))
  have hb : 0 < |signal.targetPrice - signal.price| / |signal.price - signal.stopLoss| :=
    div_pos hwin hloss
  have hraw :
      (signal.confidence * (|signal.targetPrice - signal.price| / |signal.price - signal.stopLoss|)
          - (1 - signal.confidence)) /
        (|signal.targetPrice - signal.price| / |signal.price - signal.stopLoss|) ≤ 1 := by
    rw [div_le_one hb]
    nlinarith [hb, h0, h1]
  have hle : calculateKellyFraction signal ≤ 0.25 := by
    simp only [calculateKellyFraction]
    have h025 : (0.25 : ℚ) = 1 * 0.25 := by norm_num
    refine max_le (by norm_num) ?_
    calc (signal.confidence * (|signal.targetPrice - signal.price| / |signal.price - signal.stopLoss|)
          - (1 - signal.confidence)) /
        (|signal.targetPrice - signal.price| / |signal.price - signal.stopLoss|) * 0.25
        ≤ 1 * 0.25 := by nlinarith [hraw]
      _ = 0.25 := by norm_num
  exact ⟨le_max_left 0 _, hle, min_eq_left hle⟩

/-- Witness for C8 at the spec scenario (price 100, stop 98, target
105, confidence 0.8). -/
theorem kellyFraction_bounded_witness :
    0 ≤ calculateKellyFraction sigC8 ∧
      calculateKellyFraction sigC8 ≤ 0.25 ∧
      min (calculateKellyFraction sigC8) 0.25 = calculateKellyFraction sigC8 :=
  kellyFraction_bounded sigC8 (by with_unfolding_all decide)
    (by with_unfolding_all decide) (by with_unfolding_all decide)
    (by with_unfolding_all decide)

/-- C5 (counterexample): a pipeline state whose ledger holds an open
BTC/USDT BUY position, and a fresh high-confidence BTC/USDT BUY
signal.  `validateSignal` accepts the signal (the mocked data sources
hide the open position from the count and correlation gates), and the
execution step then registers a second open BTC/USDT BUY position with
the ledger — the claimed rejection and the no-pyramiding consequence
both fail. -/
theorem validateSignal_accepts_same_instrument :
    posC5.symbol = sigC5.symbol ∧
      sigC5.action = "BUY" ∧
      mapGet stC5.positions "p0" = some posC5 ∧
      validateSignal {} sigC5 = true ∧
      ((processSignal venueC5 {} 10000 0 stC5 sigC5).1.positions.map
          (fun e => ((Prod.snd e).symbol, (Prod.snd e).side))) =
        [("BTC/USDT", "BUY"), ("BTC/USDT", "BUY")] := by
  refine ⟨rfl, rfl, rfl, by with_unfolding_all decide, ?_⟩
  have hne : ¬ ("p0" : String) = "ord1" := by decide
  have hsize : calculatePositionSize {} 10000 sigC5 = 43 / 2 := by
    norm_num [calculatePositionSize, calculateKellyFraction, getVolatilityMultiplier,
      jsOrQ, metaVolatility, roundTo2, sigC5, max_def, min_def]
  have hsz0 : ¬ calculatePositionSize {} 10000 sigC5 = 0 := by
    rw [hsize]
    norm_num
  have hstale : ¬ ((0 : ℕ) - sigC5.timestamp > 300000) := by decide
  simp only [processSignal, if_neg hstale, if_neg hsz0]
  simp [venueC5, addPosition, mapSet, mapGet, hne, sigC5, stC5, posC5]

/-- C5 (amended): `validateSignal` never consults the real open
positions — its count gate reads the mocked constant
`getOpenPositionsCount = 3` and its correlation gate folds over the
mocked empty `getOpenPositions`, so `checkCorrelationRisk` is
constantly 0 — and therefore a signal for an instrument that already
has an open position is accepted whenever its signal-intrinsic checks
(drawdown bound, count bound against the constant, confidence ≥ 0.65,
volatility ≤ 0.5, Kelly ≥ 0.01) pass: the pipeline has no
no-pyramiding protection. -/
theorem validateSignal_ignores_positions (rs : RiskState) (signal : Signal)
    (h1 : ¬ rs.currentDrawdown > rs.maxDrawdown)
    (h2 : ¬ getOpenPositionsCount ≥ rs.maxOpenPositions)
    (h3 : ¬ signal.confidence < 0.65)
    (h4 : ¬ jsOrQ (metaVolatility signal) 0 > 0.5)
    (h5 : ¬ calculateKellyFraction signal < 0.01) :
    (∀ symbol : String, checkCorrelationRisk symbol = 0) ∧
      validateSignal rs signal = true := by
  have hc : ∀ symbol : String, checkCorrelationRisk symbol = 0 := fun _ => rfl
  refine ⟨hc, ?_⟩
  unfold validateSignal
  rw [if_neg h1, if_neg h2, if_neg (by rw [hc]; norm_num), if_neg h3, if_neg h4,
    if_neg h5]

/-- Witness for C5 (amended) at the concrete same-instrument signal. -/
theorem validateSignal_ignores_positions_witness :
    (∀ symbol : String, checkCorrelationRisk symbol = 0) ∧
      validateSignal {} sigC5 = true :=
  validateSignal_ignores_positions {} sigC5 (by with_unfolding_all decide)
    (by with_unfolding_all decide) (by with_unfolding_all decide)
    (by with_unfolding_all decide) (by with_unfolding_all decide)

/-! ### Fold lemmas for the import/export round trip -/

theorem mapGet_append_none {α : Type} (l : List (String × α)) (k a : String)
    (b : α) (h1 : mapGet l k = none) (h2 : k ≠ a) :
    mapGet (l ++ [(a, b)]) k = none := by
  induction l with
  | nil =>
      simp only [List.nil_append, mapGet]
      rw [if_neg (fun h : a = k => h2 h.symm)]
  | cons e rest ih =>
      simp only [mapGet] at h1 ⊢
      by_cases he : e.1 = k
      · rw [if_pos he] at h1
        exact absurd h1 (by simp)
      · rw [if_neg he] at h1 ⊢
        exact ih h1

theorem foldl_mapSet_append {α : Type} (l : List (String × α)) :
    ∀ acc : List (String × α), (l.map Prod.fst).Nodup →
      (∀ e ∈ l, mapGet acc e.1 = none) →
      l.foldl (fun m e => mapSet m e.1 e.2) acc = acc ++ l := by
  induction l with
  | nil => intro acc _ _; simp
  | cons e rest ih =>
      intro acc hnd hdisj
      simp only [List.map_cons, List.nodup_cons] at hnd
      simp only [List.foldl_cons]
      rw [mapSet_of_get_none acc e.1 e.2 (hdisj e (List.mem_cons_self e rest))]
      have hdisj2 : ∀ f ∈ rest, mapGet (acc ++ [(e.1, e.2)]) f.1 = none := by
        intro f hf
        refine mapGet_append_none acc f.1 e.1 e.2
          (hdisj f (List.mem_cons_of_mem e hf)) ?_
        intro heq
        exact hnd.1 (heq ▸ List.mem_map_of_mem Prod.fst hf)
      rw [ih (acc ++ [(e.1, e.2)]) hnd.2 hdisj2, List.append_assoc]
      rfl

/-- C2 (amended): export followed by import reproduces the balance map
exactly and the positions keyed as before, but each re-imported
position keeps only the seven serialised fields — `stopLoss`,
`takeProfit`, `value`, `realizedPnl` and the open `timestamp` come
back `undefined` — and the trade history is truncated to the last 20
records.  (Hypotheses: map keys are unique and each position is keyed
by its own id, which the ledger maintains.) -/
theorem exportImport_roundtrip (sq : ℚ → ℚ) (now : ℕ) (st : PortfolioState)
    (hbal : (st.balance.map Prod.fst).Nodup)
    (hpos : (st.positions.map Prod.fst).Nodup)
    (hkey : ∀ e ∈ st.positions, (Prod.snd e).id = e.1) :
    (importPortfolio (exportPortfolio sq now st)).balance = st.balance ∧
      (importPortfolio (exportPortfolio sq now st)).positions =
        st.positions.map (fun e => (e.1, importPosition (exportPosition e.2))) ∧
      (importPortfolio (exportPortfolio sq now st)).performanceHistory =
        st.performanceHistory.drop (st.performanceHistory.length - 20) ∧
      ∀ p : Position, importPosition (exportPosition p) =
        { id := p.id, symbol := p.symbol, side := p.side,
          entryPrice := p.entryPrice, quantity := p.quantity,
          currentPrice := p.currentPrice, value := none,
          unrealizedPnl := p.unrealizedPnl, realizedPnl := none,
          stopLoss := none, takeProfit := none, timestamp := none } := by
  refine ⟨?_, ?_, rfl, fun p => rfl⟩
  · show st.balance.foldl (fun b kv => mapSet b kv.1 kv.2) [] = st.balance
    have h := foldl_mapSet_append st.balance [] hbal (by intro e _; rfl)
    simpa using h
  · show (((st.positions.map Prod.snd).map exportPosition).foldl
        (fun m p => mapSet m p.id (importPosition p)) []) = _
    rw [List.foldl_map, List.foldl_map]
    have hstep : st.positions.foldl
        (fun m e => mapSet m (exportPosition e.2).id (importPosition (exportPosition e.2))) [] =
        st.positions.foldl
          (fun m e => mapSet m e.1 (importPosition (exportPosition e.2))) [] := by
      apply List.foldl_ext
      intro m e he
      rw [show (exportPosition e.2).id = e.1 from hkey e he]
    rw [hstep]
    have hmap := foldl_mapSet_append
      (st.positions.map (fun e => (e.1, importPosition (exportPosition e.2)))) []
      (by
        rw [List.map_map]
        exact hpos)
      (by intro e _; rfl)
    rw [List.foldl_map] at hmap
    simpa using hmap

/-- Witness for C2 (amended) at the concrete one-position ledger. -/
theorem exportImport_roundtrip_witness :
    (importPortfolio (exportPortfolio (fun q => q) 0 stC2)).balance = stC2.balance ∧
      (importPortfolio (exportPortfolio (fun q => q) 0 stC2)).positions =
        stC2.positions.map (fun e => (e.1, importPosition (exportPosition e.2))) ∧
      (importPortfolio (exportPortfolio (fun q => q) 0 stC2)).performanceHistory =
        stC2.performanceHistory.drop (stC2.performanceHistory.length - 20) ∧
      ∀ p : Position, importPosition (exportPosition p) =
        { id := p.id, symbol := p.symbol, side := p.side,
          entryPrice := p.entryPrice, quantity := p.quantity,
          currentPrice := p.currentPrice, value := none,
          unrealizedPnl := p.unrealizedPnl, realizedPnl := none,
          stopLoss := none, takeProfit := none, timestamp := none } :=
  exportImport_roundtrip (fun q => q) 0 stC2 (by with_unfolding_all decide)
    (by with_unfolding_all decide) (by with_unfolding_all decide)

/-! ### Ledger-conservation lemmas -/

theorem balGetD_mapSet (b : List (String × ℚ)) (k c : String) (v : ℚ) :
    balGetD (mapSet b k v) c = if c = k then v else balGetD b c := by
  by_cases h : c = k
  · rw [if_pos h, h]
    unfold balGetD
    rw [mapGet_mapSet_self]
    rfl
  · rw [if_neg h]
    unfold balGetD
    rw [mapGet_mapSet_ne b k c v h]

theorem sum_map_mapSet_fresh {α : Type} (f : (String × α) → ℚ)
    (m : List (String × α)) (k : String) (p : α) (h : mapGet m k = none) :
    ((mapSet m k p).map f).sum = (m.map f).sum + f (k, p) := by
  rw [mapSet_of_get_none m k p h]
  simp

theorem sum_map_mapDelete {α : Type} (f : (String × α) → ℚ)
    (m : List (String × α)) (k : String) (p : α) (h : mapGet m k = some p) :
    ((mapDelete m k).map f).sum = (m.map f).sum - f (k, p) := by
  induction m with
  | nil => simp [mapGet] at h
  | cons e rest ih =>
      by_cases he : e.1 = k
      · simp only [mapGet, if_pos he] at h
        have hp : e.2 = p := by injection h
        have hkp : f (k, p) = f e := by rw [← he, ← hp]
        simp only [mapDelete, if_pos he, List.map_cons, List.sum_cons, hkp]
        ring
      · simp only [mapGet, if_neg he] at h
        simp only [mapDelete, if_neg he, List.map_cons, List.sum_cons]
        rw [ih h]
        ring

theorem addPosition_positions (st : PortfolioState) (p : Position) :
    (addPosition st p).positions = mapSet st.positions p.id p := rfl

theorem addPosition_hist (st : PortfolioState) (p : Position) :
    (addPosition st p).performanceHistory = st.performanceHistory := rfl

theorem addPosition_balance (st : PortfolioState) (p : Position) :
    (addPosition st p).balance =
      if p.side = "BUY" then
        mapSet (mapSet st.balance (quoteAsset p.symbol)
            (balGetD st.balance (quoteAsset p.symbol) - p.entryPrice * p.quantity))
          (baseAsset p.symbol)
          (balGetD (mapSet st.balance (quoteAsset p.symbol)
              (balGetD st.balance (quoteAsset p.symbol) - p.entryPrice * p.quantity))
            (baseAsset p.symbol) + p.quantity)
      else
        mapSet (mapSet st.balance (baseAsset p.symbol)
            (balGetD st.balance (baseAsset p.symbol) - p.quantity))
          (quoteAsset p.symbol)
          (balGetD st.balance (quoteAsset p.symbol) + p.entryPrice * p.quantity) := rfl

theorem length_recordPerformance_ge (hist : List ClosedTrade) (t : ClosedTrade) :
    hist.length ≤ (recordPerformance hist t).length := by
  simp only [recordPerformance]
  split_ifs <;>
    simp only [List.length_drop, List.length_append, List.length_cons,
      List.length_nil] <;> omega

theorem sum_recordPerformance (g : ClosedTrade → ℚ) (hist : List ClosedTrade)
    (t : ClosedTrade) (h : hist.length < 1000) :
    ((recordPerformance hist t).map g).sum = (hist.map g).sum + g t := by
  simp only [recordPerformance]
  rw [if_neg (by simp only [List.length_append, List.length_cons, List.length_nil]; omega)]
  simp

theorem hist_length_applyOp_le (st : PortfolioState) (op : LedgerOp) :
    st.performanceHistory.length ≤ (applyOp st op).performanceHistory.length := by
  cases op with
  | openPos p => exact le_refl _
  | closePos pid ep now =>
      unfold applyOp
      cases h : mapGet st.positions pid with
      | none => simp only [closePosition, h]; exact le_refl _
      | some pos =>
          simp only [closePosition, h]
          exact length_recordPerformance_ge _ _

theorem hist_length_runOps_le (ops : List LedgerOp) :
    ∀ st : PortfolioState,
      st.performanceHistory.length ≤ (runOps st ops).performanceHistory.length := by
  induction ops with
  | nil => intro st; exact le_refl _
  | cons op rest ih =>
      intro st
      exact le_trans (hist_length_applyOp_le st op) (ih (applyOp st op))

theorem ledgerInv_open (st : PortfolioState) (p : Position) (c : String)
    (h : mapGet st.positions p.id = none)
    (hbq : baseAsset p.symbol ≠ quoteAsset p.symbol) :
    ledgerInv (addPosition st p) c = ledgerInv st c := by
  unfold ledgerInv quoteExposure baseExposure histPnlSum
  rw [addPosition_positions, addPosition_hist, addPosition_balance]
  rw [sum_map_mapSet_fresh _ _ _ _ h, sum_map_mapSet_fresh _ _ _ _ h]
  by_cases hside : p.side = "BUY"
  · rw [if_pos hside]
    simp only [balGetD_mapSet, posQuoteTerm, posBaseTerm, sideSign, if_pos hside]
    by_cases hb : c = baseAsset p.symbol
    · subst hb
      simp [hbq, Ne.symm hbq]
      try ring
    · by_cases hq : c = quoteAsset p.symbol
      · subst hq
        simp [hb]
        try ring
      · simp [hb, hq]
        try ring
  · rw [if_neg hside]
    simp only [balGetD_mapSet, posQuoteTerm, posBaseTerm, sideSign, if_neg hside]
    by_cases hb : c = baseAsset p.symbol
    · subst hb
      simp [hbq, Ne.symm hbq]
      try ring
    · by_cases hq : c = quoteAsset p.symbol
      · subst hq
        simp [hb]
        try ring
      · simp [hb, hq]
        try ring

theorem ledgerInv_close (st : PortfolioState) (pid : String) (ep : Option ℚ)
    (now : ℕ) (c : String) (hlen : st.performanceHistory.length < 1000) :
    ledgerInv (applyOp st (LedgerOp.closePos pid ep now)) c = ledgerInv st c := by
  unfold applyOp
  cases h : mapGet st.positions pid with
  | none => simp only [closePosition, h]
  | some pos =>
      simp only [closePosition, h]
      unfold ledgerInv quoteExposure baseExposure histPnlSum
      dsimp only
      rw [sum_map_mapDelete _ _ _ _ h, sum_map_mapDelete _ _ _ _ h,
        sum_recordPerformance _ _ _ hlen]
      by_cases hside : pos.side = "BUY"
      · rw [if_pos hside]
        simp only [balGetD_mapSet, posQuoteTerm, posBaseTerm, sideSign,
          calculatePnL, if_pos hside]
        by_cases hb : c = baseAsset pos.symbol
        · subst hb
          by_cases hbq : baseAsset pos.symbol = quoteAsset pos.symbol
          · simp [hbq]
            try ring
          · simp [hbq, Ne.symm hbq]
            try ring
        · by_cases hq : c = quoteAsset pos.symbol
          · subst hq
            by_cases hbq : baseAsset pos.symbol = quoteAsset pos.symbol
            · simp [hbq]
              try ring
            · simp [hb, hbq, Ne.symm hbq]
              try ring
          · simp [hb, hq]
            try ring
      · rw [if_neg hside]
        simp only [balGetD_mapSet, posQuoteTerm, posBaseTerm, sideSign,
          calculatePnL, if_neg hside]
        by_cases hb : c = baseAsset pos.symbol
        · subst hb
          by_cases hbq : baseAsset pos.symbol = quoteAsset pos.symbol
          · simp [hbq]
            try ring
          · simp [hbq, Ne.symm hbq]
            try ring
        · by_cases hq : c = quoteAsset pos.symbol
          · subst hq
            by_cases hbq : baseAsset pos.symbol = quoteAsset pos.symbol
            · simp [hbq]
              try ring
            · simp [hb, hbq, Ne.symm hbq]
              try ring
          · simp [hb, hq]
            try ring

theorem ledgerInv_applyOp (st : PortfolioState) (op : LedgerOp) (c : String)
    (hfresh : ∀ p, op = LedgerOp.openPos p →
      mapGet st.positions p.id = none ∧ baseAsset p.symbol ≠ quoteAsset p.symbol)
    (hlen : st.performanceHistory.length < 1000) :
    ledgerInv (applyOp st op) c = ledgerInv st c := by
  cases op with
  | openPos p =>
      obtain ⟨h1, h2⟩ := hfresh p rfl
      exact ledgerInv_open st p c h1 h2
  | closePos pid ep now => exact ledgerInv_close st pid ep now c hlen

theorem ledgerInv_runOps (ops : List LedgerOp) :
    ∀ (st : PortfolioState) (c : String), wfOps st ops = true →
      (runOps st ops).performanceHistory.length < 1000 →
      ledgerInv (runOps st ops) c = ledgerInv st c := by
  induction ops with
  | nil => intro st c _ _; rfl
  | cons op rest ih =>
      intro st c hwf hlen
      simp only [wfOps, Bool.and_eq_true] at hwf
      have hrun : runOps st (op :: rest) = runOps (applyOp st op) rest := rfl
      have hlen2 : (applyOp st op).performanceHistory.length < 1000 := by
        have := hist_length_runOps_le rest (applyOp st op)
        rw [hrun] at hlen
        omega
      have hlen1 : st.performanceHistory.length < 1000 :=
        lt_of_le_of_lt (hist_length_applyOp_le st op) hlen2
      have hstep : ledgerInv (applyOp st op) c = ledgerInv st c := by
        refine ledgerInv_applyOp st op c ?_ hlen1
        intro p hop
        subst hop
        simp only [Bool.and_eq_true, Option.isNone_iff_eq_none,
          decide_eq_true_eq] at hwf
        exact hwf.1
      rw [hrun, ih (applyOp st op) c hwf.2 (hrun ▸ hlen), hstep]

/-- C7 (amended): for every well-formed operation sequence — fresh
position ids and proper BASE/QUOTE pairs — starting from a ledger with
no open positions and no history, if fewer than 1000 trades are
recorded (so the bounded history evicts nothing) and every opened
position has been closed again, then for each currency the recorded
realized P&L sums exactly to the net balance change (conservation).
With history eviction (> 1000 closes) or a reused id the equation
fails, see the counterexample. -/
theorem pnl_conservation (ops : List LedgerOp) (st0 : PortfolioState) (c : String)
    (hpos0 : st0.positions = []) (hhist0 : st0.performanceHistory = [])
    (hwf : wfOps st0 ops = true)
    (hlen : (runOps st0 ops).performanceHistory.length < 1000)
    (hclosed : (runOps st0 ops).positions = []) :
    histPnlSum (runOps st0 ops) c =
      balGetD (runOps st0 ops).balance c - balGetD st0.balance c := by
  have hinv := ledgerInv_runOps ops st0 c hwf hlen
  unfold ledgerInv quoteExposure baseExposure at hinv
  rw [hclosed, hpos0] at hinv
  have hh0 : histPnlSum st0 c = 0 := by
    unfold histPnlSum
    rw [hhist0]
    rfl
  rw [hh0] at hinv
  simp only [List.map_nil, List.sum_nil] at hinv
  linarith [hinv]

/-- Witness for C7 (amended): one open/close round trip realizing
+1 USDT from the empty ledger. -/
theorem pnl_conservation_witness :
    histPnlSum (runOps emptyState demoOps) "USDT" =
      balGetD (runOps emptyState demoOps).balance "USDT" -
        balGetD emptyState.balance "USDT" :=
  pnl_conservation demoOps emptyState "USDT" rfl rfl
    (by with_unfolding_all decide) (by with_unfolding_all decide)
    (by with_unfolding_all decide)

theorem runOps_append (st : PortfolioState) (l1 l2 : List LedgerOp) :
    runOps st (l1 ++ l2) = runOps (runOps st l1) l2 := by
  unfold runOps
  exact List.foldl_append applyOp st l1 l2

theorem baseAsset_btcusdt : baseAsset "BTC/USDT" = "BTC" := rfl

theorem quoteAsset_btcusdt : quoteAsset "BTC/USDT" = "USDT" := rfl

theorem usdt_ne_btc : ¬ ("USDT" : String) = "BTC" := by decide

theorem btc_ne_usdt : ¬ ("BTC" : String) = "USDT" := by decide

theorem openStep_cx (x y : ℚ) (h : List ClosedTrade) :
    applyOp (PortfolioState.mk [] [("USDT", x), ("BTC", y)] h)
      (LedgerOp.openPos cxPos) =
    PortfolioState.mk [("p1", cxPos)] [("USDT", x - 1), ("BTC", y + 1)] h := by
  norm_num [applyOp, addPosition, mapSet, mapGet, balGetD, baseAsset_btcusdt,
    quoteAsset_btcusdt, cxPos, usdt_ne_btc]

theorem closeStep_cx (x y : ℚ) (h : List ClosedTrade) :
    applyOp (PortfolioState.mk [("p1", cxPos)] [("USDT", x), ("BTC", y)] h)
      (LedgerOp.closePos "p1" (some 2) 0) =
    PortfolioState.mk [] [("USDT", x + 2), ("BTC", y - 1)]
      (recordPerformance h cxTrade) := by
  norm_num [applyOp, closePosition, mapSet, mapGet, mapDelete, balGetD, jsOrQ,
    calculatePnL, baseAsset_btcusdt, quoteAsset_btcusdt, cxPos, cxTrade, usdt_ne_btc]

theorem recordPerformance_replicate (n : ℕ) :
    recordPerformance (List.replicate (min n 1000) cxTrade) cxTrade =
      List.replicate (min (n + 1) 1000) cxTrade := by
  simp only [recordPerformance]
  rw [← List.replicate_succ']
  by_cases hn : n < 1000
  · rw [if_neg (by simp only [List.length_replicate]; omega)]
    congr 1
    omega
  · rw [if_pos (by simp only [List.length_replicate]; omega)]
    have h1 : min n 1000 = 1000 := by omega
    have h2 : min (n + 1) 1000 = 1000 := by omega
    rw [h1, h2, List.replicate_succ]
    simp

theorem repState : ∀ n : ℕ, runOps emptyState (repOps (n + 1)) =
    PortfolioState.mk [] [("USDT", ((n + 1 : ℕ) : ℚ)), ("BTC", 0)]
      (List.replicate (min (n + 1) 1000) cxTrade) := by
  intro n
  induction n with
  | zero =>
      show runOps emptyState (repOps 1) = _
      norm_num [repOps, runOps, applyOp, addPosition, closePosition, mapSet,
        mapGet, mapDelete, balGetD, jsOrQ, calculatePnL, recordPerformance,
        emptyState, baseAsset_btcusdt, quoteAsset_btcusdt, cxPos, cxTrade,
        usdt_ne_btc, List.replicate]
  | succ n ih =>
      have hsplit : repOps (n + 1 + 1) =
          repOps (n + 1) ++
            [LedgerOp.openPos cxPos, LedgerOp.closePos "p1" (some 2) 0] := rfl
      rw [hsplit, runOps_append, ih]
      have hrun2 : ∀ st : PortfolioState,
          runOps st [LedgerOp.openPos cxPos, LedgerOp.closePos "p1" (some 2) 0] =
            applyOp (applyOp st (LedgerOp.openPos cxPos))
              (LedgerOp.closePos "p1" (some 2) 0) := fun st => rfl
      rw [hrun2, openStep_cx, closeStep_cx, recordPerformance_replicate]
      have hq : ((n + 1 : ℕ) : ℚ) - 1 + 2 = ((n + 1 + 1 : ℕ) : ℚ) := by
        push_cast
        ring
      rw [hq]
      norm_num

theorem repOps_positions (n : ℕ) : (runOps emptyState (repOps n)).positions = [] := by
  cases n with
  | zero => rfl
  | succ n => rw [repState n]

theorem wfOps_append (l1 : List LedgerOp) :
    ∀ (l2 : List LedgerOp) (st : PortfolioState),
      wfOps st (l1 ++ l2) = (wfOps st l1 && wfOps (runOps st l1) l2) := by
  induction l1 with
  | nil => intro l2 st; simp [wfOps, runOps]
  | cons op rest ih =>
      intro l2 st
      simp only [List.cons_append, wfOps, List.append_eq, ih, Bool.and_assoc]
      rfl

theorem wf_repOps : ∀ n : ℕ, wfOps emptyState (repOps n) = true := by
  intro n
  induction n with
  | zero => rfl
  | succ n ih =>
      have hsplit : repOps (n + 1) =
          repOps n ++
            [LedgerOp.openPos cxPos, LedgerOp.closePos "p1" (some 2) 0] := rfl
      rw [hsplit, wfOps_append, ih, Bool.true_and]
      have hpos := repOps_positions n
      simp [wfOps, hpos, mapGet, applyOp, baseAsset_btcusdt, quoteAsset_btcusdt,
        cxPos, btc_ne_usdt]


/-- C7 (counterexample): 1001 well-formed open/close round trips, each
realizing +1 USDT, starting from the empty ledger.  The bounded trade
history (capped at 1000 records, oldest evicted) then records only
1000 of the trades: the recorded realized P&L sums to 1000 while the
cash balance has grown by 1001 — the claimed conservation equation
fails even though every position was closed again. -/
theorem pnl_conservation_eviction :
    wfOps emptyState (repOps 1001) = true ∧
      (runOps emptyState (repOps 1001)).positions = [] ∧
      histPnlSum (runOps emptyState (repOps 1001)) "USDT" = 1000 ∧
      balGetD (runOps emptyState (repOps 1001)).balance "USDT" -
          balGetD emptyState.balance "USDT" = 1001 ∧
      histPnlSum (runOps emptyState (repOps 1001)) "USDT" ≠
        balGetD (runOps emptyState (repOps 1001)).balance "USDT" -
          balGetD emptyState.balance "USDT" := by
  have h0 : (1000 : ℕ) + 1 = 1001 := rfl
  have hstate : runOps emptyState (repOps 1001) =
      PortfolioState.mk [] [("USDT", ((1001 : ℕ) : ℚ)), ("BTC", 0)]
        (List.replicate 1000 cxTrade) := by
    have h := repState 1000
    rw [h0] at h
    rw [h]
    have hmin : min 1001 1000 = 1000 := by omega
    rw [hmin]
  have h2 : (runOps emptyState (repOps 1001)).positions = [] := by
    rw [hstate]
  have h3 : histPnlSum (runOps emptyState (repOps 1001)) "USDT" = 1000 := by
    rw [hstate]
    simp only [histPnlSum, List.map_replicate, List.sum_replicate,
      quoteAsset_btcusdt, cxTrade, nsmul_eq_mul]
    norm_num
  have h4 : balGetD (runOps emptyState (repOps 1001)).balance "USDT" -
      balGetD emptyState.balance "USDT" = 1001 := by
    rw [hstate]
    simp only [balGetD, mapGet, emptyState]
    norm_num
  refine ⟨wf_repOps 1001, h2, h3, h4, ?_⟩
  rw [h3, h4]
  norm_num
